import Mathlib

/-
Verification development for the absolute-localisation sensor adapter
(include/rtslam/sensorAbsloc.hpp).

The adapter fuses an absolute-position sensor into an EKF pose estimate.
We embed the `SensorAbsloc::process` and `SensorAbsloc::init` members as
pure Lean functions over rational-valued state.  Machine floating point is
modelled by ℚ; the algebraic structure of the computation is identical.

External collaborators that are not part of this translation unit
(quaternion tools, the uBLAS matrix-sandwich helper, the filter correction
primitive) are modelled from the spec at their interface, as noted on each
definition.  The robot pose covariance view `pose.P()` and the projection
of the filter covariance onto the global-pose index set `ia_rs` address
the same 7x7 block of the filter matrix; both are modelled by the single
field `Pose.P`.  The generic filter correction `filterPtr->correct(...)`
is external state mutation; the arguments submitted to it are recorded in
the result instead.
-/

namespace rtslam


abbrev Vec3 := Fin 3 → ℚ

abbrev Vec4 := Fin 4 → ℚ

def zeroVec3 : Vec3 := fun _ => 0

/-- Modelled from the spec: `quaternion::rotate` (quatTools.hpp is not part
of this translation unit) rotates a 3-vector by a unit quaternion
`q = (w, x, y, z)`, i.e. applies the standard quaternion rotation matrix. -/
def rotate (q : Vec4) (v : Vec3) : Vec3 :=
  ![(q 0 ^ 2 + q 1 ^ 2 - q 2 ^ 2 - q 3 ^ 2) * v 0
      + 2 * (q 1 * q 2 - q 0 * q 3) * v 1 + 2 * (q 1 * q 3 + q 0 * q 2) * v 2,
    2 * (q 1 * q 2 + q 0 * q 3) * v 0
      + (q 0 ^ 2 - q 1 ^ 2 + q 2 ^ 2 - q 3 ^ 2) * v 1 + 2 * (q 2 * q 3 - q 0 * q 1) * v 2,
    2 * (q 1 * q 3 - q 0 * q 2) * v 0
      + 2 * (q 2 * q 3 + q 0 * q 1) * v 1 + (q 0 ^ 2 - q 1 ^ 2 - q 2 ^ 2 + q 3 ^ 2) * v 2]

/-- Modelled from the spec: `quaternion::rotate_by_dq` (quatTools.hpp is not
part of this translation unit) is the Jacobian of `rotate q v` with respect
to the quaternion `q`: the 3x4 matrix of partial derivatives of the entries
of `rotate q v`. -/
def rotate_by_dq (q : Vec4) (v : Vec3) : Matrix (Fin 3) (Fin 4) ℚ :=
  Matrix.of
    ![![2 * (q 0 * v 0 - q 3 * v 1 + q 2 * v 2),
        2 * (q 1 * v 0 + q 2 * v 1 + q 3 * v 2),
        2 * (-(q 2) * v 0 + q 1 * v 1 + q 0 * v 2),
        2 * (-(q 3) * v 0 - q 0 * v 1 + q 1 * v 2)],
      ![2 * (q 3 * v 0 + q 0 * v 1 - q 1 * v 2),
        2 * (q 2 * v 0 - q 1 * v 1 - q 0 * v 2),
        2 * (q 1 * v 0 + q 2 * v 1 + q 3 * v 2),
        2 * (q 0 * v 0 - q 3 * v 1 + q 2 * v 2)],
      ![2 * (-(q 2) * v 0 + q 1 * v 1 + q 0 * v 2),
        2 * (q 3 * v 0 + q 0 * v 1 - q 1 * v 2),
        2 * (-(q 0) * v 0 + q 3 * v 1 - q 2 * v 2),
        2 * (q 1 * v 0 + q 2 * v 1 + q 3 * v 2)]]

/-- Modelled from the spec: `ublasExtra::prod_JPJt` (ublasExtra.hpp is not
part of this translation unit) is the covariance sandwich J * P * Jt. -/
def prod_JPJt {a b : ℕ} (P : Matrix (Fin a) (Fin a) ℚ) (J : Matrix (Fin b) (Fin a) ℚ) :
    Matrix (Fin b) (Fin b) ℚ :=
  J * P * Matrix.transpose J

/-- Sensor configuration and extrinsics: `inns` is the innovation/data size
fixed in `setHardwareSensor`, `hasVar` whether the driver reports one
variance per data channel, `absolute` the construction-time policy flag,
and `T` the lever-arm, i.e. the first three entries of the sensor pose. -/
structure SensorState where
  inns : ℕ
  hasVar : Bool
  absolute : Bool
  T : Vec3

/-- Robot pose state: `x` holds position (entries 0-2) and orientation
quaternion (entries 3-6); `P` is the 7x7 covariance block over these
components (a view into the filter covariance). -/
structure Pose where
  x : Fin 7 → ℚ
  P : Matrix (Fin 7) (Fin 7) ℚ

/-- Robot state as seen by the sensor: the reference-frame origin (an empty
vector, i.e. `none`, until set) and the pose. -/
structure Robot where
  origin : Option Vec3
  pose : Pose

/-- One raw reading: `data` is the channel vector indexed as in the C++
code, with values at indices 1..inns and variances
at indices 1+inns..2*inns. -/
structure Reading where
  data : ℕ → ℚ

/-- Raw sample of the calibration window (`init`): identifier from
`queryAvailableRaws` and the channel vector from `observeRaw`. -/
structure RawSample where
  id : ℕ
  data : ℕ → ℚ

/-- Error raised through JFR_ERROR in `process`; the spec names the two
conditions `UnsupportedMeasurementDimension` and `MissingVarianceModel`. -/
inductive RtslamError where
  | unsupportedDimension : ℕ → RtslamError
  | missingVariance : RtslamError
deriving DecidableEq

/-- Mean and covariance pair of dimension 3, the shape of the
Expectation, Measurement and Innovation objects in the supported case. -/
structure Gauss3 where
  x : Vec3
  P : Matrix (Fin 3) (Fin 3) ℚ

/-- Arguments submitted to the external filter correction
`filterPtr->correct(ia_x, *innovation, INN_rs, ia_rs)`: the innovation and
the cross-Jacobian INN_rs. -/
structure CorrectionCall where
  inn : Gauss3
  cross : Matrix (Fin 3) (Fin 7) ℚ

/-- Result of one `process` call: the robot state after the call, the
error raised (if any), the member objects written during the call, and the
correction call submitted to the filter (if any). -/
structure ProcessResult where
  robot : Robot
  error : Option RtslamError
  expectation : Option Gauss3
  measurement : Option Gauss3
  innovation : Option Gauss3
  jacobian : Option (Matrix (Fin 3) (Fin 7) ℚ)
  correction : Option (CorrectionCall)

def pidx (i : Fin 3) : Fin 7 := ⟨(i : ℕ), by have := i.isLt; omega⟩

def qidx (i : Fin 4) : Fin 7 := ⟨(i : ℕ) + 3, by have := i.isLt; omega⟩

/-- Position part `p` of the robot pose: `subrange(pose.x(), 0, 3)`. -/
def pOf (r : Robot) : Vec3 := ![r.pose.x 0, r.pose.x 1, r.pose.x 2]

/-- Orientation quaternion `q` of the robot pose: `subrange(pose.x(), 3, 7)`. -/
def qOf (r : Robot) : Vec4 := ![r.pose.x 3, r.pose.x 4, r.pose.x 5, r.pose.x 6]

/-- Orientation covariance block `subrange(pose.P(), 3,7, 3,7)`. -/
def oriBlock (P : Matrix (Fin 7) (Fin 7) ℚ) : Matrix (Fin 4) (Fin 4) ℚ :=
  Matrix.of fun i j => P (qidx i) (qidx j)

/-- The expectation Jacobian EXP_rs: identity block with respect to the
position and `rotate_by_dq` block with respect to the quaternion
(lines 134-136 of the source). -/
def EXPrs (q : Vec4) (T : Vec3) : Matrix (Fin 3) (Fin 7) ℚ :=
  Matrix.of fun i j =>
    if hj : (j : ℕ) < 3 then (if (i : ℕ) = (j : ℕ) then 1 else 0)
    else rotate_by_dq q T i ⟨(j : ℕ) - 3, by have := j.isLt; omega⟩

/-- Measurement mean (lines 141-143): raw channels 2, 1, 3 minus the
corresponding origin component. -/
def measX (org : Vec3) (rd : Reading) : Vec3 :=
  ![rd.data 2 - org 0, rd.data 1 - org 1, rd.data 3 - org 2]

/-- Measurement covariance (lines 146-148): the diagonal holds the squares
of the variance channels 2+inns, 1+inns, 3+inns; off-diagonal entries stay
at their zero initialisation. -/
def measP (inns : ℕ) (rd : Reading) : Matrix (Fin 3) (Fin 3) ℚ :=
  Matrix.diagonal ![rd.data (2 + inns) ^ 2, rd.data (1 + inns) ^ 2, rd.data (3 + inns) ^ 2]

/-- Effect of lines 118-124: on the first call the empty origin is resized
to three entries and cleared to zero; otherwise the robot is untouched. -/
def r1of (r : Robot) : Robot :=
  match r.origin with
  | none => { r with origin := some zeroVec3 }
  | some _ => r

/-- Expectation (lines 134-139): mean `p + Tr` and covariance
`prod_JPJt(project(P, ia_rs, ia_rs), EXP_rs)`. -/
def expectationOf (s : SensorState) (r : Robot) : Gauss3 :=
  { x := fun i => pOf r i + rotate (qOf r) s.T i,
    P := prod_JPJt r.pose.P (EXPrs (qOf r) s.T) }

/-- Bootstrap branch of `process` (lines 167-196), reached on the first
reading in the supported case: both policies write the position covariance
block the same way, while origin and position depend on `absolute`. -/
def bootstrapResult (s : SensorState) (r : Robot) (rd : Reading) : ProcessResult :=
  let Tr := rotate (qOf r) s.T
  let mx := measX zeroVec3 rd
  let mP := measP s.inns rd
  let expc := expectationOf s r
  let inn : Gauss3 := { x := fun i => mx i - expc.x i, P := mP + expc.P }
  let newPblock := mP + prod_JPJt (oriBlock r.pose.P) (rotate_by_dq (qOf r) s.T)
  { robot :=
      { origin := if s.absolute then some zeroVec3 else some (fun i => mx i - Tr i),
        pose :=
          { x := fun i =>
              if hi : (i : ℕ) < 3 then
                (if s.absolute then mx ⟨(i : ℕ), hi⟩ - Tr ⟨(i : ℕ), hi⟩ else 0)
              else r.pose.x i,
            P := Matrix.of fun i j =>
              if hij : (i : ℕ) < 3 ∧ (j : ℕ) < 3 then
                newPblock ⟨(i : ℕ), hij.1⟩ ⟨(j : ℕ), hij.2⟩
              else r.pose.P i j } },
    error := none,
    expectation := some expc,
    measurement := some { x := mx, P := mP },
    innovation := some inn,
    jacobian := some (EXPrs (qOf r) s.T),
    correction := none }

/-- Correction branch of `process` (lines 202-207), reached on every
reading after the first in the supported case: the robot state mutation is
performed by the external filter, so the submitted call is recorded. -/
def correctResult (s : SensorState) (r : Robot) (rd : Reading) (v : Vec3) : ProcessResult :=
  let mx := measX v rd
  let mP := measP s.inns rd
  let expc := expectationOf s r
  let inn : Gauss3 := { x := fun i => mx i - expc.x i, P := mP + expc.P }
  { robot := r,
    error := none,
    expectation := some expc,
    measurement := some { x := mx, P := mP },
    innovation := some inn,
    jacobian := some (EXPrs (qOf r) s.T),
    correction := some { inn := inn, cross := -(EXPrs (qOf r) s.T) } }

/-- Branch of `process` for `hasVar = false` (lines 149-154): the JFR_ERROR
is raised after the expectation and the measurement mean were computed, so
processing aborts with the origin-resize of lines 118-124 already applied.
The measurement covariance is never written in this branch, so the
measurement object is not exposed. -/
def noVarResult (s : SensorState) (r : Robot) : ProcessResult :=
  { robot := r1of r,
    error := some RtslamError.missingVariance,
    expectation := some (expectationOf s r),
    measurement := none,
    innovation := none,
    jacobian := some (EXPrs (qOf r) s.T),
    correction := none }

/-- Default branch of the dimension switch (lines 162-164): the JFR_ERROR
aborts processing, with the origin-resize of lines 118-124 already applied. -/
def dimErrorResult (s : SensorState) (r : Robot) : ProcessResult :=
  { robot := r1of r,
    error := some (RtslamError.unsupportedDimension s.inns),
    expectation := none,
    measurement := none,
    innovation := none,
    jacobian := none,
    correction := none }

/-- Embedding of `SensorAbsloc::process` (lines 104-216) for one reading:
the switch is driven by the innovation size `inns`; within the supported
case the reading either bootstraps the state (first reading) or is turned
into a filter correction. -/
def process (s : SensorState) (r : Robot) (rd : Reading) : ProcessResult :=
  if s.inns = 3 then
    if s.hasVar = true then
      match r.origin with
      | none => bootstrapResult s r rd
      | some v => correctResult s r rd v
    else noVarResult s r
  else dimErrorResult s r

/-- Prefix of the calibration window up to and including the target
identifier: models the `break` at lines 83 and 95. -/
def upTo (target : ℕ) : List RawSample → List RawSample
  | [] => []
  | smp :: rest => if smp.id = target then [smp] else smp :: upTo target rest

/-- One step of the first pass of `init` (line 82): per-axis running
minimum of the variance channels. -/
def minVarStep (inns : ℕ) (mv : Vec3) (smp : RawSample) : Vec3 :=
  fun i => if smp.data ((i : ℕ) + 1 + inns) < mv i then smp.data ((i : ℕ) + 1 + inns) else mv i

def minVarFold (inns : ℕ) (acc : Vec3) (ws : List RawSample) : Vec3 :=
  ws.foldl (minVarStep inns) acc

/-- First pass of `init` (lines 78-84): per-axis minimum variance over the
window, starting from the sentinel 1e3. -/
def minVarPass (inns : ℕ) (ws : List RawSample) : Vec3 :=
  minVarFold inns (fun _ => 1000) ws

/-- Second pass of `init` (lines 87-96): accumulate, per axis, the
variance-weighted value sum and the weight sum, over samples whose
variance lies below twice the per-axis minimum. -/
def weightedPass (inns : ℕ) (mv : Vec3) (ws : List RawSample) : Vec3 × Vec3 :=
  ws.foldl
    (fun st smp =>
      (fun i =>
        if smp.data ((i : ℕ) + 1 + inns) < 2 * mv i then
          st.1 i + smp.data ((i : ℕ) + 1) * smp.data ((i : ℕ) + 1 + inns)
        else st.1 i,
       fun i =>
        if smp.data ((i : ℕ) + 1 + inns) < 2 * mv i then
          st.2 i + smp.data ((i : ℕ) + 1 + inns)
        else st.2 i))
    (zeroVec3, zeroVec3)

/-- Embedding of `SensorAbsloc::init` (lines 72-101): returns the values
and the variances written back into the reading at line 100 (per-axis
weighted average, per-axis minimum variance). -/
def calibrate (inns : ℕ) (target : ℕ) (window : List RawSample) : Vec3 × Vec3 :=
  let ws := upTo target window
  let mv := minVarPass inns ws
  let acc := weightedPass inns mv ws
  (fun i => acc.1 i / acc.2 i, mv)

/-- Running minimum of a list of rationals, as computed by the first pass. -/
def listMin (l : List ℚ) (a : ℚ) : ℚ :=
  l.foldl (fun m x => if x < m then x else m) a

def mkData (l : List ℚ) : ℕ → ℚ := fun n => l.getD n 0

/-
Concrete instances used by the closed theorems below: a position-only
sensor with zero lever-arm (exS), the same sensor with lever-arm (1,0,0)
(cxS), a 7-channel sensor (dim7S), a fresh robot with unset origin and
identity orientation (exR), a robot whose origin is already set (setR),
readings, and calibration windows.
-/

def exS : SensorState := { inns := 3, hasVar := true, absolute := false, T := ![0, 0, 0] }

def cxS : SensorState := { inns := 3, hasVar := true, absolute := false, T := ![1, 0, 0] }

def dim7S : SensorState := { inns := 7, hasVar := true, absolute := false, T := ![0, 0, 0] }

def exR : Robot :=
  { origin := none,
    pose := { x := ![0, 0, 0, 1, 0, 0, 0], P := Matrix.of fun _ _ => 0 } }

def setR : Robot :=
  { origin := some ![1, 2, 3],
    pose := { x := ![0, 0, 0, 1, 0, 0, 0], P := Matrix.of fun _ _ => 0 } }

def exRd : Reading := ⟨mkData [0, 5, 5, 5, 1, 1, 1]⟩

def dim7Rd : Reading := ⟨mkData [0, 1, 2, 3, 4, 5, 6, 7, 1, 1, 1, 1, 1, 1, 1]⟩

def c5window : List RawSample :=
  [⟨1, mkData [0, 10, 10, 10, 1, 1, 1]⟩,
   ⟨2, mkData [0, 11, 11, 11, 3/2, 3/2, 3/2]⟩,
   ⟨3, mkData [0, 100, 100, 100, 5, 5, 5]⟩]

def bigVarSample : RawSample := ⟨1, mkData [0, 10, 10, 10, 5000, 5000, 5000]⟩

lemma process_eq_bootstrap (s : SensorState) (r : Robot) (rd : Reading)
    (h3 : s.inns = 3) (hv : s.hasVar = true) (ho : r.origin = none) :
    process s r rd = bootstrapResult s r rd := by
  simp [process, h3, hv, ho]

lemma process_eq_correct (s : SensorState) (r : Robot) (rd : Reading) (v : Vec3)
    (h3 : s.inns = 3) (hv : s.hasVar = true) (ho : r.origin = some v) :
    process s r rd = correctResult s r rd v := by
  simp [process, h3, hv, ho]

lemma process_eq_noVar (s : SensorState) (r : Robot) (rd : Reading)
    (h3 : s.inns = 3) (hv : s.hasVar = false) :
    process s r rd = noVarResult s r := by
  simp [process, h3, hv]

lemma process_eq_dimError (s : SensorState) (r : Robot) (rd : Reading)
    (h3 : s.inns ≠ 3) :
    process s r rd = dimErrorResult s r := by
  simp [process, h3]

lemma r1of_pose (r : Robot) : (r1of r).pose = r.pose := by
  cases hr : r.origin <;> simp [r1of, hr]

lemma r1of_origin_isSome (r : Robot) : ((r1of r).origin).isSome = true := by
  cases hr : r.origin <;> simp [r1of, hr]

lemma r1of_origin_of_some (r : Robot) (v : Vec3) (h : r.origin = some v) :
    (r1of r).origin = some v := by
  simp [r1of, h]

lemma r1of_origin_of_none (r : Robot) (h : r.origin = none) :
    (r1of r).origin = some zeroVec3 := by
  simp [r1of, h]

lemma EXPrs_pos_block (q : Vec4) (T : Vec3) (i j : Fin 3) :
    EXPrs q T i (pidx j) = if i = j then 1 else 0 := by
  unfold EXPrs pidx
  simp only [Matrix.of_apply]
  rw [dif_pos (show ((j : ℕ) : ℕ) < 3 from j.isLt)]
  by_cases h : i = j
  · simp [h]
  · rw [if_neg h, if_neg (fun hc => h (Fin.ext hc))]

lemma EXPrs_ori_block (q : Vec4) (T : Vec3) (i : Fin 3) (j : Fin 4) :
    EXPrs q T i (qidx j) = rotate_by_dq q T i j := by
  unfold EXPrs qidx
  simp only [Matrix.of_apply]
  rw [dif_neg (by omega)]
  congr 1

lemma bootstrap_origin_relative (s : SensorState) (r : Robot) (rd : Reading)
    (habs : s.absolute = false) :
    (bootstrapResult s r rd).robot.origin =
      some (fun i => measX zeroVec3 rd i - rotate (qOf r) s.T i) := by
  simp [bootstrapResult, habs]

lemma qOf_exR : qOf exR = ![1, 0, 0, 0] := by
  funext i; fin_cases i <;> rfl

lemma listMin_cons (x : ℚ) (l : List ℚ) (a : ℚ) :
    listMin (x :: l) a = listMin l (if x < a then x else a) := rfl

lemma listMin_le_init (l : List ℚ) (a : ℚ) : listMin l a ≤ a := by
  induction l generalizing a with
  | nil => exact le_refl a
  | cons x l ih =>
      rw [listMin_cons]
      refine le_trans (ih _) ?_
      by_cases hx : x < a
      · rw [if_pos hx]; exact le_of_lt hx
      · rw [if_neg hx]

lemma listMin_le_mem (l : List ℚ) (a x : ℚ) (hx : x ∈ l) : listMin l a ≤ x := by
  induction l generalizing a with
  | nil => cases hx
  | cons y l ih =>
      rw [listMin_cons]
      rcases List.mem_cons.mp hx with h | h
      · subst h
        refine le_trans (listMin_le_init _ _) ?_
        by_cases hy : x < a
        · rw [if_pos hy]
        · rw [if_neg hy]; exact le_of_not_lt hy
      · exact ih _ h

lemma listMin_eq_init_or_mem (l : List ℚ) (a : ℚ) : listMin l a = a ∨ listMin l a ∈ l := by
  induction l generalizing a with
  | nil => exact Or.inl rfl
  | cons x l ih =>
      rw [listMin_cons]
      by_cases hx : x < a
      · rw [if_pos hx]
        rcases ih x with h | h
        · exact Or.inr (by rw [h]; exact List.mem_cons_self x l)
        · exact Or.inr (List.mem_cons_of_mem x h)
      · rw [if_neg hx]
        rcases ih a with h | h
        · exact Or.inl h
        · exact Or.inr (List.mem_cons_of_mem x h)

lemma minVarFold_apply (inns : ℕ) (ws : List RawSample) (acc : Vec3) (i : Fin 3) :
    minVarFold inns acc ws i =
      listMin (ws.map fun smp => smp.data ((i : ℕ) + 1 + inns)) (acc i) := by
  induction ws generalizing acc with
  | nil => rfl
  | cons smp rest ih =>
      show minVarFold inns (minVarStep inns acc smp) rest i = _
      rw [ih]
      rfl

/-- C1 (amended): on the first processed reading with `absolute = false`,
the Origin Bootstrapper sets Origin to Measurement.mean minus the rotated
lever-arm Tr, and sets the agent position to the zero vector.  When the
lever-arm is T = (0,0,0) under the identity quaternion, Tr is zero and
Origin equals Measurement.mean, so the concrete scenario of the claim
(Measurement.mean = (5,5,5) giving Origin = (5,5,5), position = (0,0,0))
holds unchanged. -/
theorem C1_bootstrap_relative_origin (s : SensorState) (r : Robot) (rd : Reading)
    (h3 : s.inns = 3) (hv : s.hasVar = true) (habs : s.absolute = false)
    (ho : r.origin = none) :
    (process s r rd).measurement = some { x := measX zeroVec3 rd, P := measP s.inns rd } ∧
    (process s r rd).robot.origin =
      some (fun i => measX zeroVec3 rd i - rotate (qOf r) s.T i) ∧
    (∀ i : Fin 7, (i : ℕ) < 3 → (process s r rd).robot.pose.x i = 0) := by
  rw [process_eq_bootstrap s r rd h3 hv ho]
  refine ⟨rfl, ?_, ?_⟩
  · simp [bootstrapResult, habs]
  · intro i hi
    show (if h : (i : ℕ) < 3 then (if s.absolute then _ else 0) else r.pose.x i) = 0
    rw [dif_pos hi, habs]
    simp

/-- C1 counterexample: with lever-arm T = (1,0,0), identity quaternion and
Measurement.mean = (5,5,5), the code sets Origin to (4,5,5), not to
Measurement.mean as the claim states: line 188 subtracts the rotated
lever-arm. -/
theorem C1_counterexample :
    ((process cxS exR exRd).measurement.map Gauss3.x) = some ![5, 5, 5] ∧
    (process cxS exR exRd).robot.origin ≠ some ![(5 : ℚ), 5, 5] := by
  rw [process_eq_bootstrap cxS exR exRd rfl rfl rfl]
  constructor
  · show some (measX zeroVec3 exRd) = some ![5, 5, 5]
    refine congrArg some (funext fun i => ?_)
    fin_cases i <;> norm_num [measX, exRd, mkData, zeroVec3]
  · rw [bootstrap_origin_relative cxS exR exRd rfl]
    intro hEq
    have h0 := congrFun (Option.some_inj.mp hEq) 0
    norm_num [measX, rotate, qOf_exR, exRd, mkData, zeroVec3, cxS] at h0

/-- C1 witness: the amended theorem instantiated at the concrete bootstrap
scenario of the claim (Measurement.mean = (5,5,5), T = (0,0,0), identity
quaternion), where indeed Origin = (5,5,5) and the position is zeroed. -/
theorem C1_bootstrap_relative_origin_witness :
    exS.inns = 3 ∧ exS.hasVar = true ∧ exS.absolute = false ∧ exR.origin = none ∧
    ((process exS exR exRd).measurement =
        some { x := measX zeroVec3 exRd, P := measP exS.inns exRd } ∧
      (process exS exR exRd).robot.origin =
        some (fun i => measX zeroVec3 exRd i - rotate (qOf exR) exS.T i) ∧
      (∀ i : Fin 7, (i : ℕ) < 3 → (process exS exR exRd).robot.pose.x i = 0)) ∧
    (process exS exR exRd).robot.origin = some ![5, 5, 5] := by
  refine ⟨rfl, rfl, rfl, rfl, C1_bootstrap_relative_origin exS exR exRd rfl rfl rfl rfl, ?_⟩
  rw [process_eq_bootstrap exS exR exRd rfl rfl rfl,
    bootstrap_origin_relative exS exR exRd rfl]
  refine congrArg some (funext fun i => ?_)
  fin_cases i <;> norm_num [measX, rotate, qOf_exR, exS, exRd, mkData, zeroVec3]

/-- C2 (amended): when the configured reading dimensionality is not 3,
process fails with the unsupported-dimension error, submits no correction,
and leaves the pose (position, orientation and the full covariance)
unchanged; however, if this is the first reading, lines 118-124 resize and
zero the origin before the dimension switch, so Origin is mutated from
unset to the zero vector. -/
theorem C2_dimension_mismatch (s : SensorState) (r : Robot) (rd : Reading)
    (h3 : s.inns ≠ 3) :
    (process s r rd).error = some (RtslamError.unsupportedDimension s.inns) ∧
    (process s r rd).correction = none ∧
    (process s r rd).robot.pose = r.pose ∧
    (r.origin = none → (process s r rd).robot.origin = some zeroVec3) ∧
    (∀ v : Vec3, r.origin = some v → (process s r rd).robot.origin = some v) := by
  rw [process_eq_dimError s r rd h3]
  refine ⟨rfl, rfl, r1of_pose r, ?_, ?_⟩
  · exact fun h => r1of_origin_of_none r h
  · exact fun v h => r1of_origin_of_some r v h

/-- C2 counterexample: processing a 7-channel reading on a fresh robot
raises the unsupported-dimension error, yet mutates Origin from unset
(none) to the zero vector, contradicting the requirement that no Shared
Agent State be mutated. -/
theorem C2_counterexample :
    exR.origin = none ∧
    (process dim7S exR dim7Rd).error = some (RtslamError.unsupportedDimension 7) ∧
    (process dim7S exR dim7Rd).robot.origin = some zeroVec3 ∧
    some zeroVec3 ≠ (none : Option Vec3) := by
  refine ⟨rfl, ?_, ?_, by simp⟩
  · rw [process_eq_dimError dim7S exR dim7Rd (by decide)]; rfl
  · rw [process_eq_dimError dim7S exR dim7Rd (by decide)]
    exact r1of_origin_of_none exR rfl

/-- C2 witness: the amended theorem instantiated at a 7-channel sensor and
a robot whose origin is already set. -/
theorem C2_dimension_mismatch_witness :
    dim7S.inns ≠ 3 ∧
    ((process dim7S setR dim7Rd).error = some (RtslamError.unsupportedDimension dim7S.inns) ∧
      (process dim7S setR dim7Rd).correction = none ∧
      (process dim7S setR dim7Rd).robot.pose = setR.pose ∧
      (setR.origin = none → (process dim7S setR dim7Rd).robot.origin = some zeroVec3) ∧
      (∀ v : Vec3, setR.origin = some v → (process dim7S setR dim7Rd).robot.origin = some v)) :=
  ⟨by decide, C2_dimension_mismatch dim7S setR dim7Rd (by decide)⟩

/-- C3: after any process call the Origin is set, and a process call never
alters an already-set Origin; hence across any call sequence Origin
transitions from unset to a fixed value exactly once, at the first call,
and never transitions back. -/
theorem C3_origin_set_once (s : SensorState) (r : Robot) (rd : Reading) :
    ((process s r rd).robot.origin).isSome = true ∧
    (r.origin = none ∨ (process s r rd).robot.origin = r.origin) := by
  by_cases h3 : s.inns = 3
  · by_cases hv : s.hasVar = true
    · cases ho : r.origin with
      | none =>
          rw [process_eq_bootstrap s r rd h3 hv ho]
          refine ⟨?_, Or.inl rfl⟩
          simp only [bootstrapResult]
          cases s.absolute <;> simp
      | some v =>
          rw [process_eq_correct s r rd v h3 hv ho]
          exact ⟨by simp [correctResult, ho], Or.inr (by simp only [correctResult]; exact ho)⟩
    · have hv2 : s.hasVar = false := by simpa using hv
      rw [process_eq_noVar s r rd h3 hv2]
      refine ⟨r1of_origin_isSome r, ?_⟩
      cases ho : r.origin with
      | none => exact Or.inl rfl
      | some v => exact Or.inr (by rw [show (noVarResult s r).robot = r1of r from rfl,
          r1of_origin_of_some r v ho])
  · rw [process_eq_dimError s r rd h3]
    refine ⟨r1of_origin_isSome r, ?_⟩
    cases ho : r.origin with
    | none => exact Or.inl rfl
    | some v => exact Or.inr (by rw [show (dimErrorResult s r).robot = r1of r from rfl,
        r1of_origin_of_some r v ho])

/-- C4: in the supported n = 3 case the Measurement Model builds the
Jacobian EXP_rs from an identity block with respect to the position and
the rotation-Jacobian block `rotate_by_dq q T` with respect to the
quaternion, and computes Expectation.mean = p + rotate(q,T) and
Expectation.cov = EXP_rs * P * transpose(EXP_rs) over the (p,q) covariance
sub-block. -/
theorem C4_measurement_model (s : SensorState) (r : Robot) (rd : Reading)
    (h3 : s.inns = 3) (hv : s.hasVar = true) :
    (process s r rd).jacobian = some (EXPrs (qOf r) s.T) ∧
    (∀ i j : Fin 3, EXPrs (qOf r) s.T i (pidx j) = if i = j then 1 else 0) ∧
    (∀ (i : Fin 3) (j : Fin 4), EXPrs (qOf r) s.T i (qidx j) = rotate_by_dq (qOf r) s.T i j) ∧
    (process s r rd).expectation =
      some { x := fun i => pOf r i + rotate (qOf r) s.T i,
             P := EXPrs (qOf r) s.T * r.pose.P * Matrix.transpose (EXPrs (qOf r) s.T) } := by
  refine ⟨?_, fun i j => EXPrs_pos_block _ _ i j, fun i j => EXPrs_ori_block _ _ i j, ?_⟩ <;>
  · cases ho : r.origin with
    | none => rw [process_eq_bootstrap s r rd h3 hv ho]; rfl
    | some v => rw [process_eq_correct s r rd v h3 hv ho]; rfl

/-- C4 witness: the theorem instantiated at a concrete sensor, robot and
reading. -/
theorem C4_measurement_model_witness :
    exS.inns = 3 ∧ exS.hasVar = true ∧
    ((process exS exR exRd).jacobian = some (EXPrs (qOf exR) exS.T) ∧
      (∀ i j : Fin 3, EXPrs (qOf exR) exS.T i (pidx j) = if i = j then 1 else 0) ∧
      (∀ (i : Fin 3) (j : Fin 4),
        EXPrs (qOf exR) exS.T i (qidx j) = rotate_by_dq (qOf exR) exS.T i j) ∧
      (process exS exR exRd).expectation =
        some { x := fun i => pOf exR i + rotate (qOf exR) exS.T i,
               P := EXPrs (qOf exR) exS.T * exR.pose.P *
                 Matrix.transpose (EXPrs (qOf exR) exS.T) }) :=
  ⟨rfl, rfl, C4_measurement_model exS exR exRd rfl rfl⟩

/-- C5: for the three-sample window with variances 1.0, 1.5, 5.0 and
values 10.0, 11.0, 100.0, the Calibration Estimator finds minVar = 1.0,
admits only the two samples with variance below 2.0 into the inlier band
(weight sum 2.5), and outputs mean 10.6 = 53/5 with variance 1.0. -/
theorem C5_calibration_example :
    minVarPass 3 (upTo 3 c5window) 0 = 1 ∧
    (weightedPass 3 (minVarPass 3 (upTo 3 c5window)) (upTo 3 c5window)).2 0 = 5/2 ∧
    (calibrate 3 3 c5window).1 0 = 53/5 ∧
    (calibrate 3 3 c5window).2 0 = 1 := by
  refine ⟨?_, ?_, ?_, ?_⟩ <;>
    norm_num [calibrate, minVarPass, minVarFold, minVarStep, weightedPass, upTo,
      c5window, mkData, zeroVec3]

/-- C6 (amended): for every calibration window and each axis, the first
pass records minVar equal to the minimum of the sentinel 1000 (the 1e3
initialisation of line 78) and the variances seen in the window up to and
including the target identifier, and the output variance equals that
minVar.  The claim as stated (minVar equals the minimum variance seen)
fails when every variance is at least 1000. -/
theorem C6_minvar_sentinel (inns target : ℕ) (window : List RawSample) (i : Fin 3)
    (_hne : upTo target window ≠ []) :
    (calibrate inns target window).2 i = minVarPass inns (upTo target window) i ∧
    minVarPass inns (upTo target window) i ≤ 1000 ∧
    (∀ smp ∈ upTo target window,
      minVarPass inns (upTo target window) i ≤ smp.data ((i : ℕ) + 1 + inns)) ∧
    (minVarPass inns (upTo target window) i = 1000 ∨
      ∃ smp ∈ upTo target window,
        minVarPass inns (upTo target window) i = smp.data ((i : ℕ) + 1 + inns)) := by
  have hval : minVarPass inns (upTo target window) i =
      listMin ((upTo target window).map fun smp => smp.data ((i : ℕ) + 1 + inns)) 1000 :=
    minVarFold_apply inns (upTo target window) (fun _ => 1000) i
  refine ⟨rfl, ?_, ?_, ?_⟩
  · rw [hval]; exact listMin_le_init _ _
  · intro smp hs
    rw [hval]
    exact listMin_le_mem _ _ _ (List.mem_map_of_mem _ hs)
  · rcases listMin_eq_init_or_mem
      ((upTo target window).map fun smp => smp.data ((i : ℕ) + 1 + inns)) 1000 with h | h
    · exact Or.inl (by rw [hval, h])
    · rcases List.mem_map.mp h with ⟨smp, hs, he⟩
      exact Or.inr ⟨smp, hs, by rw [hval, ← he]⟩

/-- C6 counterexample: a one-sample window whose variance is 5000 on every
axis yields minVar = 1000 (the sentinel), not the minimum reported
variance 5000 required by the claim. -/
theorem C6_counterexample :
    bigVarSample.data 4 = 5000 ∧
    upTo 1 [bigVarSample] = [bigVarSample] ∧
    (calibrate 3 1 [bigVarSample]).2 0 = 1000 ∧
    ((1000 : ℚ) = 5000 → False) := by
  refine ⟨?_, ?_, ?_, by norm_num⟩
  · norm_num [bigVarSample, mkData]
  · simp [upTo, bigVarSample]
  · norm_num [calibrate, minVarPass, minVarFold, minVarStep, upTo, bigVarSample, mkData]

/-- C6 witness: the amended theorem instantiated at the one-sample window. -/
theorem C6_minvar_sentinel_witness :
    upTo 1 [bigVarSample] ≠ [] ∧
    ((calibrate 3 1 [bigVarSample]).2 0 = minVarPass 3 (upTo 1 [bigVarSample]) 0 ∧
      minVarPass 3 (upTo 1 [bigVarSample]) 0 ≤ 1000 ∧
      (∀ smp ∈ upTo 1 [bigVarSample],
        minVarPass 3 (upTo 1 [bigVarSample]) 0 ≤ smp.data ((0 : ℕ) + 1 + 3)) ∧
      (minVarPass 3 (upTo 1 [bigVarSample]) 0 = 1000 ∨
        ∃ smp ∈ upTo 1 [bigVarSample],
          minVarPass 3 (upTo 1 [bigVarSample]) 0 = smp.data ((0 : ℕ) + 1 + 3))) :=
  ⟨by simp [upTo, bigVarSample], C6_minvar_sentinel 3 1 [bigVarSample] 0
    (by simp [upTo, bigVarSample])⟩

/-- C7: the code defines no guard for an empty (or degenerate) calibration
window: on the empty window the weight accumulator stays zero and the
average of line 97 is formed by dividing by that zero accumulator (the
ℚ model yields 0; the C++ code divides by zero), instead of failing with
InsufficientCalibrationData as the claim requires. -/
theorem C7_empty_window_unguarded :
    upTo 0 ([] : List RawSample) = [] ∧
    (weightedPass 3 (minVarPass 3 []) []).2 0 = 0 ∧
    (calibrate 3 0 []).1 0 = 0 := by
  refine ⟨rfl, rfl, ?_⟩
  norm_num [calibrate, weightedPass, minVarPass, minVarFold, upTo, zeroVec3]

/-- C8: for every valid 3-dimensional reading with hasVar = true, the
Measurement covariance built by process is diagonal, and its diagonal
entries are the squares of the per-axis deviation channels reported by the
driver (channels 2+inns, 1+inns, 3+inns for axes 0, 1, 2). -/
theorem C8_measurement_cov_diagonal (s : SensorState) (r : Robot) (rd : Reading)
    (h3 : s.inns = 3) (hv : s.hasVar = true) :
    ∃ m, (process s r rd).measurement = some m ∧
      m.P 0 0 = rd.data (2 + s.inns) ^ 2 ∧
      m.P 1 1 = rd.data (1 + s.inns) ^ 2 ∧
      m.P 2 2 = rd.data (3 + s.inns) ^ 2 ∧
      (∀ i j : Fin 3, i ≠ j → m.P i j = 0) := by
  have hP : ∀ org : Vec3,
      (measP s.inns rd) 0 0 = rd.data (2 + s.inns) ^ 2 ∧
      (measP s.inns rd) 1 1 = rd.data (1 + s.inns) ^ 2 ∧
      (measP s.inns rd) 2 2 = rd.data (3 + s.inns) ^ 2 ∧
      (∀ i j : Fin 3, i ≠ j → (measP s.inns rd) i j = 0) := by
    intro org
    refine ⟨by simp [measP], by simp [measP], by simp [measP], fun i j hij => ?_⟩
    simp [measP, Matrix.diagonal_apply_ne _ hij]
  cases ho : r.origin with
  | none =>
      rw [process_eq_bootstrap s r rd h3 hv ho]
      exact ⟨{ x := measX zeroVec3 rd, P := measP s.inns rd }, rfl, hP zeroVec3⟩
  | some v =>
      rw [process_eq_correct s r rd v h3 hv ho]
      exact ⟨{ x := measX v rd, P := measP s.inns rd }, rfl, hP v⟩

/-- C8 witness: the theorem instantiated at a concrete sensor, robot and
reading. -/
theorem C8_measurement_cov_diagonal_witness :
    exS.inns = 3 ∧ exS.hasVar = true ∧
    (∃ m, (process exS exR exRd).measurement = some m ∧
      m.P 0 0 = exRd.data (2 + exS.inns) ^ 2 ∧
      m.P 1 1 = exRd.data (1 + exS.inns) ^ 2 ∧
      m.P 2 2 = exRd.data (3 + exS.inns) ^ 2 ∧
      (∀ i j : Fin 3, i ≠ j → m.P i j = 0)) :=
  ⟨rfl, rfl, C8_measurement_cov_diagonal exS exR exRd rfl rfl⟩

/-- C9: for every non-bootstrap (non-first) reading, the cross-Jacobian
INN_rs submitted to the filter correction equals, exactly, the negation of
the Expectation Jacobian EXP_rs. -/
theorem C9_cross_jacobian_negation (s : SensorState) (r : Robot) (rd : Reading) (v : Vec3)
    (h3 : s.inns = 3) (hv : s.hasVar = true) (ho : r.origin = some v) :
    (process s r rd).jacobian = some (EXPrs (qOf r) s.T) ∧
    (∃ c, (process s r rd).correction = some c ∧ c.cross = -(EXPrs (qOf r) s.T)) := by
  rw [process_eq_correct s r rd v h3 hv ho]
  exact ⟨rfl, ⟨_, rfl, rfl⟩⟩

/-- C9 witness: the theorem instantiated at a robot whose origin is
already set. -/
theorem C9_cross_jacobian_negation_witness :
    exS.inns = 3 ∧ exS.hasVar = true ∧ setR.origin = some ![1, 2, 3] ∧
    ((process exS setR exRd).jacobian = some (EXPrs (qOf setR) exS.T) ∧
      (∃ c, (process exS setR exRd).correction = some c ∧
        c.cross = -(EXPrs (qOf setR) exS.T))) :=
  ⟨rfl, rfl, rfl, C9_cross_jacobian_negation exS setR exRd ![1, 2, 3] rfl rfl rfl⟩

/-- C10: during a first-reading bootstrap under either policy, process
writes only the position entries 0-2 of the pose, the top-left 3x3
covariance block, and Origin: the quaternion entries 3-6 and every pose
covariance entry outside the top-left 3x3 block are left unchanged, and no
correction is submitted. -/
theorem C10_bootstrap_frame_effect (s : SensorState) (r : Robot) (rd : Reading)
    (h3 : s.inns = 3) (hv : s.hasVar = true) (ho : r.origin = none) :
    (∀ i : Fin 7, 3 ≤ (i : ℕ) → (process s r rd).robot.pose.x i = r.pose.x i) ∧
    (∀ i j : Fin 7, 3 ≤ (i : ℕ) ∨ 3 ≤ (j : ℕ) →
      (process s r rd).robot.pose.P i j = r.pose.P i j) ∧
    ((process s r rd).robot.origin).isSome = true ∧
    (process s r rd).correction = none := by
  rw [process_eq_bootstrap s r rd h3 hv ho]
  refine ⟨?_, ?_, ?_, rfl⟩
  · intro i hi
    show (if h : (i : ℕ) < 3 then _ else r.pose.x i) = r.pose.x i
    rw [dif_neg (by omega)]
  · intro i j hij
    show (if h : (i : ℕ) < 3 ∧ (j : ℕ) < 3 then _ else r.pose.P i j) = r.pose.P i j
    rw [dif_neg (by omega)]
  · simp only [bootstrapResult]
    cases s.absolute <;> simp

/-- C10 witness: the theorem instantiated at a concrete sensor, robot and
reading. -/
theorem C10_bootstrap_frame_effect_witness :
    exS.inns = 3 ∧ exS.hasVar = true ∧ exR.origin = none ∧
    ((∀ i : Fin 7, 3 ≤ (i : ℕ) → (process exS exR exRd).robot.pose.x i = exR.pose.x i) ∧
      (∀ i j : Fin 7, 3 ≤ (i : ℕ) ∨ 3 ≤ (j : ℕ) →
        (process exS exR exRd).robot.pose.P i j = exR.pose.P i j) ∧
      ((process exS exR exRd).robot.origin).isSome = true ∧
      (process exS exR exRd).correction = none) :=
  ⟨rfl, rfl, rfl, C10_bootstrap_frame_effect exS exR exRd rfl rfl rfl⟩

end rtslam
